import Mathlib

/-!
Verification of the product-factory evaluation-and-derivation pipeline.

This file gives a shallow embedding, in Lean, of the pure policy kernel of the
pipeline: topic clustering and deduplication (analyst), the opportunity scorer
with its viability / semantic-dedup / slug gates and window classification,
the deriver's duplicate suppression, the keyword-validation volume policy,
the AI invocation router (provider fallback, quota cooldown) and the budget
governor.  External capabilities (the relational store's contents, LLM
attempt outcomes, autocomplete suggestion lists, the host runtime's
`JSON.parse`, the wall clock) are passed in as explicit values or functions;
everything the repository itself computes is translated here and proved about.

Numbers that the source manipulates as JS numbers are modelled as `ℚ`
(timestamps in milliseconds, scores, costs); DB integer counters as `ℕ`.
JS strings are Lean `String`s; `String.toLowerCase` is modelled by the
ASCII `Char.toLower` (all inputs the policies compare are ASCII or CJK,
which both maps untouched).
-/

/-! ## String primitives used throughout the source -/

/-- Lowercase a string character-wise (models JS `String.prototype.toLowerCase`
on the ASCII/CJK alphabets the pipeline compares). -/
def lowerStr (s : String) : String := String.mk (s.data.map Char.toLower)

/-- Does the list `hay` start with the list `pat`? -/
def charsStartWith : List Char → List Char → Bool
  | _, [] => true
  | [], _ :: _ => false
  | a :: as, b :: bs => a = b && charsStartWith as bs

/-- Does `hay` contain `pat` as a contiguous run?  (models JS
`String.prototype.includes` on the character lists). -/
def containsSub : List Char → List Char → Bool
  | [], pat => pat.isEmpty
  | h :: t, pat => charsStartWith (h :: t) pat || containsSub t pat

/-- JS `a.includes(b)` on strings. -/
def strIncludes (hay pat : String) : Bool := containsSub hay.data pat.data

/-- Split `hay` around the first occurrence of `pat`; `none` when `pat` does
not occur.  Returns the part strictly before the occurrence and the part
strictly after it. -/
def splitFirst : List Char → List Char → Option (List Char × List Char)
  | hay, pat =>
    if charsStartWith hay pat then some ([], hay.drop pat.length)
    else
      match hay with
      | [] => none
      | h :: t => (splitFirst t pat).map (fun pr => (h :: pr.1, pr.2))

/-- Characters matched by the JS regex class `\s`. -/
def isJsSpace (c : Char) : Bool :=
  c.toNat ∈ [0x20, 0x09, 0x0a, 0x0b, 0x0c, 0x0d, 0xa0, 0x1680, 0x2028, 0x2029,
    0x202f, 0x205f, 0x3000, 0xfeff] || (0x2000 ≤ c.toNat && c.toNat ≤ 0x200a)

/-- Split a character list on whitespace.  Runs of whitespace produce empty
tokens here, which every caller in the source discards via its length filter,
so this agrees with JS `split(/\s+/)` after that filter. -/
def splitWs : List Char → List Char → List (List Char)
  | [], acc => [acc.reverse]
  | c :: rest, acc =>
    if isJsSpace c then acc.reverse :: splitWs rest [] else splitWs rest (c :: acc)

/-- Keep the first occurrence of every element (models the JS `Set`
constructor applied to a list of strings). -/
def dedupFirst : List String → List String
  | [] => []
  | x :: xs => x :: (dedupFirst xs).filter (fun y => y ≠ x)

/-! ## Topic words and Jaccard similarity (src/agents/analyst/index.ts,
`extractTopicWords` / `topicSimilarity`) -/

/-- The analyst's stop-word list, verbatim from `extractTopicWords`. -/
def STOP_WORDS : List String :=
  ["the", "a", "an", "is", "are", "was", "were", "be", "been", "being",
   "have", "has", "had", "do", "does", "did", "will", "would", "could",
   "should", "may", "might", "can", "shall", "to", "of", "in", "for",
   "on", "with", "at", "by", "from", "as", "into", "about", "through",
   "how", "what", "which", "who", "when", "where", "why", "all", "each",
   "every", "both", "few", "more", "most", "other", "some", "such", "no",
   "not", "only", "own", "same", "so", "than", "too", "very", "just",
   "and", "but", "or", "nor", "if", "then", "else", "this", "that",
   "these", "those", "it", "its", "your", "our", "my", "his", "her",
   "step", "by", "guide", "tutorial", "complete", "full", "new", "best",
   "top", "tips", "tricks", "ultimate", "2024", "2025", "2026"]

/-- Keep `[a-z0-9\s一-鿿]`, replace every other character by a
space (the analyst's normalisation regex). -/
def keepTopicChar (c : Char) : Char :=
  if ('a' ≤ c && c ≤ 'z') || ('0' ≤ c && c ≤ '9') || isJsSpace c
      || (0x4e00 ≤ c.toNat && c.toNat ≤ 0x9fff) then c else ' '

/-- Extract core topic words from a string for similarity comparison:
lowercase, strip characters outside `[a-z0-9\s一-鿿]`, tokenize on
whitespace, drop tokens with length ≤ 2 and stop-words, collect as a set
(here: a duplicate-free list keeping first occurrences). -/
def extractTopicWords (text : String) : List String :=
  let replaced := (lowerStr text).data.map keepTopicChar
  let tokens := (splitWs replaced []).map String.mk
  dedupFirst (tokens.filter (fun w => 2 < w.length && !(STOP_WORDS.contains w)))

/-- Jaccard similarity between two word sets (duplicate-free lists):
`|a ∩ b| / |a ∪ b|`, and `0` when either set is empty.  `mkRat p q` is the
rational `p / q`. -/
def topicSimilarity (a b : List String) : ℚ :=
  if a.length = 0 || b.length = 0 then 0
  else
    let intersection := (a.filter (fun w => b.contains w)).length
    let union := (dedupFirst (a ++ b)).length
    if 0 < union then mkRat intersection union else 0

/-! ## Signals and topic grouping (src/agents/analyst/index.ts,
`groupSignalsByTopic`) -/

/-- A signal row, restricted to the fields the grouping logic reads.
A NULL `description` or `source_url` is the empty string (the source
applies `|| ''`). -/
structure Signal where
  id : String
  title : String
  description : String
  source_url : String
  stars : ℚ
  comments_count : ℚ
deriving DecidableEq, Repr

/-- Topic words of a signal: `extractTopicWords(title + ' ' + description)`. -/
def signalWords (s : Signal) : List String :=
  extractTopicWords (s.title ++ " " ++ s.description)

/-- URL normalisation used by the grouping: text before the first `?`,
trailing slashes stripped, lowercased. -/
def normalizeUrl (u : String) : String :=
  lowerStr (String.mk (((u.data.takeWhile (fun c => c ≠ '?')).reverse.dropWhile
    (fun c => c = '/')).reverse))

/-- The grouping's merge condition between the group's opening signal `i`
and a candidate `j`: topic similarity ≥ 0.4, or identical non-empty
normalised source URLs. -/
def signalMatch (i j : Signal) : Bool :=
  let sim := topicSimilarity (signalWords i) (signalWords j)
  let urlI := normalizeUrl i.source_url
  let urlJ := normalizeUrl j.source_url
  decide (mkRat 2 5 ≤ sim) || (!(urlI == "") && !(urlJ == "") && urlI == urlJ)

/-- Fuelled worker for `groupSignalsByTopic`: the first unassigned signal
opens a group and absorbs every later unassigned signal matching it; the
rest is processed recursively.  The fuel only forces structural recursion;
`groupSignalsByTopic` supplies `l.length`, which always suffices. -/
def groupGo : ℕ → List Signal → List (List Signal)
  | 0, _ => []
  | _, [] => []
  | Nat.succ n, s :: rest =>
    (s :: rest.filter (fun t => signalMatch s t)) ::
      groupGo n (rest.filter (fun t => !(signalMatch s t)))

/-- Group signals by topic — signals about the same topic are merged
(deterministic, order-dependent pass of src/agents/analyst/index.ts lines
434–461). -/
def groupSignalsByTopic (signals : List Signal) : List (List Signal) :=
  groupGo signals.length signals

/-- Every group the grouping pass produces consists of an opening signal
followed by signals that each satisfy the merge condition against that
opener (and only against the opener — mutual similarity of non-opening
members is not checked). -/
theorem groupGo_sound (n : ℕ) (l : List Signal) (g : List Signal)
    (hg : g ∈ groupGo n l) :
    ∃ o tl, g = o :: tl ∧ ∀ t ∈ tl, signalMatch o t = true := by
  induction n generalizing l with
  | zero => simp [groupGo] at hg
  | succ n ih =>
    match l with
    | [] => simp [groupGo] at hg
    | s :: rest =>
      simp only [groupGo, List.mem_cons] at hg
      rcases hg with hg | hg
      · refine ⟨s, rest.filter (fun t => signalMatch s t), hg, ?_⟩
        intro t ht
        exact (List.mem_filter.mp ht).2
      · exact ih _ hg

/-- Concrete signal used in the clustering analysis. -/
def sigA : Signal := ⟨"a", "apple banana", "", "", 0, 0⟩

/-- Concrete signal used in the clustering analysis. -/
def sigB : Signal := ⟨"b", "apple banana cherry durian", "", "", 0, 0⟩

/-- Concrete signal used in the clustering analysis. -/
def sigC : Signal := ⟨"c", "cherry durian grape", "", "", 0, 0⟩

/-- C2, counterexample: `sigB` and `sigC` have topic-word Jaccard similarity
exactly 0.4 (`{cherry, durian}` out of five words), yet the batch
`[sigA, sigB, sigC]` groups `sigB` with `sigA` (similarity 0.5 against the
opener) and leaves `sigC` in a separate group: similarity is only ever
evaluated against a group's opening member, so a ≥ 0.4 pair need not share
a group. -/
theorem c2_counterexample :
    mkRat 2 5 ≤ topicSimilarity (signalWords sigB) (signalWords sigC)
    ∧ groupSignalsByTopic [sigA, sigB, sigC] = [[sigA, sigB], [sigC]] := by
  decide

/-- C2, amended: every group produced by `groupSignalsByTopic` is its opening
signal followed by signals that each satisfy the merge condition (Jaccard
similarity ≥ 0.4 on topic words, or equal non-empty normalised source URLs)
against that opener; and conversely a signal matching the batch's first
signal — the opener of the first group — always lands in that signal's
group.  The guarantee is anchored at group openers, not at arbitrary pairs. -/
theorem c2_amended :
    (∀ l g, g ∈ groupSignalsByTopic l →
      ∃ o tl, g = o :: tl ∧ ∀ t ∈ tl, signalMatch o t = true)
    ∧ (∀ s rest t, t ∈ rest → signalMatch s t = true →
      s ∈ (groupSignalsByTopic (s :: rest)).headD []
      ∧ t ∈ (groupSignalsByTopic (s :: rest)).headD []) := by
  constructor
  · intro l g hg
    exact groupGo_sound _ _ _ hg
  · intro s rest t ht hm
    have hhd : (groupSignalsByTopic (s :: rest)).headD []
        = s :: rest.filter (fun u => signalMatch s u) := by
      simp [groupSignalsByTopic, groupGo]
    rw [hhd]
    exact ⟨List.mem_cons_self _ _,
      List.mem_cons_of_mem _ (List.mem_filter.mpr ⟨ht, hm⟩)⟩

/-- C2, witness for the amended theorem: `sigB` matches the batch opener
`sigA` (similarity 0.5 ≥ 0.4) and the two do share the first group. -/
theorem c2_amended_witness :
    sigA ∈ (groupSignalsByTopic [sigA, sigB]).headD []
    ∧ sigB ∈ (groupSignalsByTopic [sigA, sigB]).headD [] :=
  c2_amended.2 sigA [sigB] sigB (by decide) (by decide)

/-! ## Opportunity scorer (src/agents/analyst/index.ts, `runAnalyst`) -/

/-- The analyst's per-dimension assessment scores (`score_breakdown`). -/
structure ScoreBreakdown where
  development_speed : ℚ
  monetization : ℚ
  seo_potential : ℚ
  business_viability : ℚ
  time_sensitivity : ℚ
  longtail_value : ℚ
  novelty : ℚ
deriving DecidableEq, Repr

/-- Weighted total over `SCORE_WEIGHTS` in the source's entry order:
development_speed 0.15, monetization 0.15, seo_potential 0.15,
business_viability 0.20, time_sensitivity 0.10, longtail_value 0.15,
novelty 0.10. -/
def calculateWeightedScore (b : ScoreBreakdown) : ℚ :=
  b.development_speed * mkRat 3 20 + b.monetization * mkRat 3 20 +
    b.seo_potential * mkRat 3 20 + b.business_viability * mkRat 1 5 +
    b.time_sensitivity * mkRat 1 10 + b.longtail_value * mkRat 3 20 +
    b.novelty * mkRat 1 10

/-- Is `c` in `[a-z0-9]`? -/
def isSlugChar (c : Char) : Bool := ('a' ≤ c && c ≤ 'z') || ('0' ≤ c && c ≤ '9')

/-- Collapse runs of `-` to a single `-` (effect of the `+` in the
slug regex `[^a-z0-9]+`). -/
def squeezeDashes : List Char → List Char
  | [] => []
  | [c] => [c]
  | c :: d :: rest =>
    if c = '-' && d = '-' then squeezeDashes (d :: rest)
    else c :: squeezeDashes (d :: rest)

/-- Drop a single leading dash. -/
def dropEdgeDash : List Char → List Char
  | '-' :: r => r
  | l => l

/-- URL-safe slug (src/utils/helpers.ts `slugify`): lowercase, collapse
non-alphanumeric runs to `-`, trim one leading and one trailing `-`,
truncate to 80 characters. -/
def slugify (text : String) : String :=
  let dashed := (lowerStr text).data.map (fun c => if isSlugChar c then c else '-')
  let noLead := dropEdgeDash (squeezeDashes dashed)
  let noTrail := (dropEdgeDash noLead.reverse).reverse
  String.mk (noTrail.take 80)

/-- The effective window length: `assessment.window_days_remaining || 14` —
a zero (or, in JS, missing) estimate falls back to the default 14. -/
def effectiveWindowDays (d : ℚ) : ℚ := if d = 0 then 14 else d

/-- Window classification: effective days ≤ 3 → closing, > 30 → upcoming,
otherwise open. -/
def windowStatus (d : ℚ) : String :=
  let wd := effectiveWindowDays d
  if wd ≤ 3 then "closing" else if 30 < wd then "upcoming" else "open"

/-- `window_closes_at = now + effective days × 86 400 000 ms`. -/
def windowClosesAt (now d : ℚ) : ℚ := now + effectiveWindowDays d * 86400000

/-- The AI assessment fields the scorer's policy reads. -/
structure Assessment where
  title : String
  slug : String
  target_keyword : String
  score_breakdown : ScoreBreakdown
  window_days_remaining : ℚ
deriving DecidableEq, Repr

/-- The opportunity row fields whose values the scorer computes itself. -/
structure OppRow where
  slug : String
  status : String
  score : ℚ
  window_status : String
  window_closes_at : ℚ
deriving DecidableEq, Repr

/-- Outcome of one iteration of the analyst's evaluation loop. -/
structure AnalystStepResult where
  inserted : Option OppRow
  signalMarkedNow : Bool
deriving DecidableEq, Repr

/-- One iteration of `runAnalyst`'s evaluation loop after the AI assessment
arrives (src/agents/analyst/index.ts lines 617–703): compute the weighted
score; reject when `business_viability < 30` (marking the consumed signal
evaluated, inserting nothing); skip as duplicate coverage when some recent
opportunity's topic words reach similarity ≥ 0.35 (marking the signal
evaluated); skip silently on a slug collision; otherwise insert with status
`evaluated` when the weighted score ≥ 50 and `rejected` below. -/
def analystStep (existingTopics : List (List String)) (existingSlugs : List String)
    (now : ℚ) (a : Assessment) : AnalystStepResult :=
  let score := calculateWeightedScore a.score_breakdown
  let slug := if a.slug == "" then slugify a.title else a.slug
  let bv := a.score_breakdown.business_viability
  if bv < 30 then ⟨none, true⟩
  else
    let newWords := extractTopicWords (a.title ++ " " ++ a.target_keyword)
    if existingTopics.any (fun w => decide (mkRat 7 20 ≤ topicSimilarity newWords w)) then
      ⟨none, true⟩
    else if existingSlugs.any (fun s => s == slug) then ⟨none, false⟩
    else
      ⟨some { slug := slug,
              status := if 50 ≤ score then "evaluated" else "rejected",
              score := score,
              window_status := windowStatus a.window_days_remaining,
              window_closes_at := windowClosesAt now a.window_days_remaining }, false⟩

/-- C1: whenever the assessed `business_viability` dimension is below 30 the
scorer rejects the opportunity regardless of the weighted total — no
opportunity row is inserted at all (in particular none with status
`evaluated`) and the consumed signal is immediately marked `evaluated`. -/
theorem c1_viability_gate (topics : List (List String)) (slugs : List String)
    (now : ℚ) (a : Assessment) (h : a.score_breakdown.business_viability < 30) :
    (analystStep topics slugs now a).inserted = none
    ∧ (analystStep topics slugs now a).signalMarkedNow = true := by
  simp [analystStep, h]

/-- Concrete assessment: business_viability 20, every other dimension 90. -/
def assessLowViability : Assessment :=
  { title := "Example low viability", slug := "example-low-viability",
    target_keyword := "example keyword",
    score_breakdown := ⟨90, 90, 90, 20, 90, 90, 90⟩,
    window_days_remaining := 10 }

/-- C1, witness: business_viability 20 with every other dimension at 90 is
rejected — nothing inserted, signal marked evaluated. -/
theorem c1_viability_gate_witness :
    (analystStep [] [] 0 assessLowViability).inserted = none
    ∧ (analystStep [] [] 0 assessLowViability).signalMarkedNow = true :=
  c1_viability_gate [] [] 0 assessLowViability (by decide)

/-- Concrete assessment whose AI-estimated days remaining is 0. -/
def assessZeroWindow : Assessment :=
  { title := "Zero window example", slug := "zero-window-example",
    target_keyword := "zero window",
    score_breakdown := ⟨90, 90, 90, 90, 90, 90, 90⟩,
    window_days_remaining := 0 }

/-- C9, counterexample: with an AI-estimated `window_days_remaining` of
`d = 0` the claim demands window status `closing` (0 ≤ 3) and
`windowClosesAt = now`; the code's `windowDays || 14` fallback instead
treats 0 as 14, persists the opportunity as `open`, and sets
`window_closes_at` fourteen days out (1 209 600 000 ms past `now = 0`). -/
theorem c9_counterexample :
    windowStatus 0 = "open" ∧ windowStatus 0 ≠ "closing"
    ∧ windowClosesAt 0 0 = 1209600000
    ∧ ((analystStep [] [] 0 assessZeroWindow).inserted.map
        (fun r => (r.window_status, r.window_closes_at)))
      = some ("open", 1209600000) := by
  have hclose : windowClosesAt 0 0 = 1209600000 := by
    simp only [windowClosesAt, effectiveWindowDays, if_pos rfl]
    norm_num
  refine ⟨by decide, by decide, hclose, ?_⟩
  simp only [analystStep, assessZeroWindow]
  rw [if_neg (by norm_num : ¬ ((90 : ℚ) < 30))]
  simp only [List.any_nil, Bool.false_eq_true, if_false, Option.map_some]
  simp [hclose]
  decide

/-- C9, amended: for every persisted opportunity the window status is derived
from the AI-estimated days remaining `d` as `d ≤ 3 → closing`,
`d > 30 → upcoming`, otherwise `open`, and `window_closes_at` is the
evaluation time plus `d` days — provided `d ≠ 0`; a zero (or missing)
estimate is replaced by the default 14 days first. -/
theorem c9_amended (now d : ℚ) (h : d ≠ 0) :
    windowStatus d = (if d ≤ 3 then "closing" else if 30 < d then "upcoming" else "open")
    ∧ windowClosesAt now d = now + d * 86400000
    ∧ ∀ topics slugs a row, a.window_days_remaining = d →
        (analystStep topics slugs now a).inserted = some row →
        row.window_status = windowStatus d ∧ row.window_closes_at = windowClosesAt now d := by
  refine ⟨by simp [windowStatus, effectiveWindowDays, h],
    by simp [windowClosesAt, effectiveWindowDays, h], ?_⟩
  intro topics slugs a row hd hrow
  simp only [analystStep] at hrow
  split at hrow
  · exact absurd hrow (by simp)
  · split at hrow
    · exact absurd hrow (by simp)
    · split at hrow <;> split at hrow <;>
        first
          | (dsimp only at hrow
             injection hrow with h4
             subst h4
             exact ⟨by simp [hd], by simp [hd]⟩)
          | simp at hrow

/-- C9, witness for the amended theorem at `d = 2`: status `closing`,
closes 172 800 000 ms after the evaluation instant. -/
theorem c9_amended_witness :
    windowStatus 2 = "closing" ∧ windowClosesAt 0 2 = 172800000 := by
  have h := c9_amended 0 2 (by norm_num)
  exact ⟨h.1.trans (by norm_num), h.2.1.trans (by norm_num)⟩

/-! ## AI invocation router (src/ai/client.ts) -/

/-- The process-local exhaustion cache (`exhaustedProviderCache`): an
association list from `provider:model` keys to expiry instants (ms). -/
def Cache : Type := List (String × ℚ)

/-- Lookup in the exhaustion cache. -/
def cacheGet (c : Cache) (k : String) : Option ℚ :=
  ((c : List (String × ℚ)).find? (fun p => p.1 == k)).map (fun p => p.2)

/-- Delete a key from the exhaustion cache. -/
def cacheDel (c : Cache) (k : String) : Cache :=
  (c : List (String × ℚ)).filter (fun p => !(p.1 == k))

/-- Set a key in the exhaustion cache (JS `Map.set` overwrites). -/
def cacheSet (c : Cache) (k : String) (v : ℚ) : Cache :=
  ((k, v) :: (cacheDel c k : List (String × ℚ)) : List (String × ℚ))

/-- The fixed cooldown window (`QUOTA_CACHE_TTL_MS`). -/
def QUOTA_CACHE_TTL_MS : ℚ := 60000

/-- Quota/rate-limit/resource-exhaustion signature classification
(`isQuotaExceededError`), on the error message. -/
def isQuotaExceededError (msg : String) : Bool :=
  let m := lowerStr msg
  strIncludes m "quota exceeded" || strIncludes m "rate limit" ||
    strIncludes m "resource exhausted" || strIncludes m "too many requests" ||
    strIncludes m "无可用渠道"

/-- The cache key for a (provider, model) pair. -/
def providerCacheKey (provider model : String) : String := provider ++ ":" ++ model

/-- `isProviderExhausted`: a pair is exhausted while a cache entry exists
whose expiry has not passed; an entry found expired is deleted.  Returns the
verdict and the possibly-updated cache. -/
def checkProviderExhausted (now : ℚ) (c : Cache) (provider model : String) :
    Bool × Cache :=
  match cacheGet c (providerCacheKey provider model) with
  | none => (false, c)
  | some expiry =>
    if expiry < now then (false, cacheDel c (providerCacheKey provider model))
    else (true, c)

/-- `markProviderExhausted`: start a 60 s cooldown for the pair. -/
def markProviderExhausted (now : ℚ) (c : Cache) (provider model : String) : Cache :=
  cacheSet c (providerCacheKey provider model) (now + QUOTA_CACHE_TTL_MS)

/-- One `ai_api_keys` row, restricted to the fields the router reads. -/
structure KeyRow where
  id : String
  key_value : String
  base_url : String
  provider : String
  allowed_models : List String
  error_count : ℕ
  is_active : Bool
deriving DecidableEq, Repr

/-- A loaded candidate credential as `loadAllKeys` shapes it. -/
structure KeyData where
  id : String
  key : String
  base_url : String
  provider : String
  model : String
deriving DecidableEq, Repr

/-- Stable insertion into a list kept ascending by `error_count`. -/
def insertByErr (x : KeyRow) : List KeyRow → List KeyRow
  | [] => [x]
  | y :: ys =>
    if x.error_count < y.error_count then x :: y :: ys else y :: insertByErr x ys

/-- Stable ascending sort by `error_count` (the DB's
`order('error_count', { ascending: true })`). -/
def sortByErrorCount (l : List KeyRow) : List KeyRow := l.foldr insertByErr []

/-- `loadAllKeys`: the active rows ordered by ascending error count, each
mapped to its first allowed model (default `gemini-2.0-flash`). -/
def loadAllKeys (rows : List KeyRow) : List KeyData :=
  (sortByErrorCount (rows.filter (fun r => r.is_active))).map (fun k =>
    { id := k.id, key := k.key_value, base_url := k.base_url,
      provider := k.provider, model := k.allowed_models.headD "gemini-2.0-flash" })

/-- The observable outcome of one logical `aiGenerateText` call: the
returned text (or `null`), the exhaustion cache afterwards, and the
candidates actually attempted, in order. -/
structure GenResult where
  result : Option String
  cache : Cache
  attempts : List KeyData

/-- The candidate loop of `aiGenerateText` (src/ai/client.ts lines
204–229).  `outcome k` is the settled external attempt against candidate
`k` — `Except.ok text` for a successful generation, `Except.error msg` for
a thrown error or timeout (the catch block).  Exhausted pairs are skipped;
the first success returns immediately; a failure whose message matches a
quota signature marks the pair exhausted; when the pool runs out the
result is `none`. -/
def runKeys (now : ℚ) (outcome : KeyData → Except String String) :
    List KeyData → Cache → GenResult
  | [], c => ⟨none, c, []⟩
  | k :: rest, c =>
    let chk := checkProviderExhausted now c k.provider k.model
    if chk.1 then runKeys now outcome rest chk.2
    else
      match outcome k with
      | Except.ok text => ⟨some text, chk.2, [k]⟩
      | Except.error msg =>
        let c2 := if isQuotaExceededError msg then
          markProviderExhausted now chk.2 k.provider k.model else chk.2
        let r := runKeys now outcome rest c2
        ⟨r.result, r.cache, k :: r.attempts⟩

/-- `aiGenerateText` as one logical call at instant `now`: load and order
the key pool, then run the fallback loop against the exhaustion cache. -/
def aiGenerateText (now : ℚ) (c : Cache) (outcome : KeyData → Except String String)
    (rows : List KeyRow) : GenResult :=
  runKeys now outcome (loadAllKeys rows) c

/-- Extract the lazily-matched fenced block contents: the text between the
first occurrence of `openPat` and the first `\n`&grave;`&grave;`&grave;
after it (the regexes `/```json\n([\s\S]*?)\n```/` and
`/```\n([\s\S]*?)\n```/`). -/
def matchFence (text openPat : List Char) : Option (List Char) :=
  match splitFirst text openPat with
  | none => none
  | some pr => (splitFirst pr.2 ('\n' :: '`' :: '`' :: '`' :: [])).map (fun q => q.1)

/-- The greedy object span `/\{[\s\S]*\}/`: from the first `{` to the last
`}`, when the latter follows the former. -/
def braceSpan (cs : List Char) : Option (List Char) :=
  match cs.dropWhile (fun c => c ≠ '{') with
  | [] => none
  | l =>
    match l.reverse.dropWhile (fun c => c ≠ '}') with
    | [] => none
    | r => some r.reverse

/-- The string `aiGenerateJson` hands to `JSON.parse`: unwrap a fenced code
block if present, then take the greedy `{…}` span if present, else the
unwrapped text itself. -/
def jsonCandidate (text : String) : String :=
  let jsonText :=
    match matchFence text.data ('`' :: '`' :: '`' :: 'j' :: 's' :: 'o' :: 'n' :: '\n' :: []) with
    | some c => String.mk c
    | none =>
      match matchFence text.data ('`' :: '`' :: '`' :: '\n' :: []) with
      | some c => String.mk c
      | none => text
  match braceSpan jsonText.data with
  | some s => String.mk s
  | none => jsonText

/-- `aiGenerateJson`: run the text call, then re-parse the returned text
with the host runtime's `JSON.parse` (passed in as `parse`, returning
`Except.error` where JS would throw); a generation failure or a parse
failure both yield `null`. -/
def aiGenerateJson {J : Type} (now : ℚ) (c : Cache)
    (outcome : KeyData → Except String String) (rows : List KeyRow)
    (parse : String → Except String J) : Option J :=
  match (aiGenerateText now c outcome rows).result with
  | none => none
  | some text =>
    match parse (jsonCandidate text) with
    | Except.ok v => some v
    | Except.error _ => none

theorem cacheGet_set_self (c : Cache) (k : String) (v : ℚ) :
    cacheGet (cacheSet c k v) k = some v := by
  simp [cacheGet, cacheSet, List.find?]

theorem cacheGet_del_ne (c : Cache) (k kOther : String) (h : ¬ k = kOther) :
    cacheGet (cacheDel c kOther) k = cacheGet c k := by
  induction c with
  | nil => rfl
  | cons p t ih =>
    show cacheGet (List.filter _ (p :: t)) k = _
    rw [List.filter_cons]
    by_cases hp : p.1 = kOther
    · have hpk : (p.1 == k) = false := by
        simp only [beq_eq_false_iff_ne, ne_eq]
        intro hk; exact h (hk ▸ hp)
      simp only [hp, beq_self_eq_true, Bool.not_true, Bool.false_eq_true, if_false]
      have hdel : List.filter (fun q => !(q.1 == kOther)) t = cacheDel t kOther := rfl
      rw [hdel, ih]
      simp [cacheGet, List.find?, hpk]
    · have hpo : (p.1 == kOther) = false := by simpa using hp
      simp only [hpo, Bool.not_false, if_true]
      by_cases hpk : p.1 = k
      · simp [cacheGet, List.find?, hpk]
      · have hpk' : (p.1 == k) = false := by simpa using hpk
        simp only [cacheGet, List.find?, hpk']
        exact ih

theorem cacheGet_set_ne (c : Cache) (k kOther : String) (v : ℚ) (h : ¬ k = kOther) :
    cacheGet (cacheSet c kOther v) k = cacheGet c k := by
  have hk : (kOther == k) = false := by
    simp only [beq_eq_false_iff_ne, ne_eq]
    intro hh; exact h hh.symm
  show cacheGet (List.cons _ _) k = _
  simp only [cacheGet, List.find?, hk]
  exact cacheGet_del_ne c k kOther h

/-- A (provider, model) cache key is exhausted at instant `now`: a cache
entry exists whose expiry has not passed. -/
def exhaustedNow (now : ℚ) (c : Cache) (key : String) : Prop :=
  ∃ e, cacheGet c key = some e ∧ ¬ e < now

theorem checkProviderExhausted_true_iff (now : ℚ) (c : Cache) (p m : String) :
    (checkProviderExhausted now c p m).1 = true ↔
      exhaustedNow now c (providerCacheKey p m) := by
  unfold checkProviderExhausted exhaustedNow
  cases hg : cacheGet c (providerCacheKey p m) with
  | none => simp
  | some e =>
    dsimp only
    by_cases he : e < now
    · rw [if_pos he]
      refine iff_of_false (by simp) ?_
      rintro ⟨x, hx, hlt⟩
      injection hx with hx
      exact hlt (hx ▸ he)
    · rw [if_neg he]
      exact iff_of_true rfl ⟨e, rfl, he⟩

theorem exhaustedNow_check (now : ℚ) (c : Cache) (p m key : String)
    (h : exhaustedNow now c key) :
    exhaustedNow now (checkProviderExhausted now c p m).2 key := by
  unfold checkProviderExhausted
  cases hg : cacheGet c (providerCacheKey p m) with
  | none => simpa using h
  | some e =>
    by_cases he : e < now
    · simp only [he, if_true]
      obtain ⟨eK, hgK, hltK⟩ := h
      by_cases hk : key = providerCacheKey p m
      · subst hk; rw [hgK] at hg
        cases hg
        exact absurd he hltK
      · exact ⟨eK, by rw [cacheGet_del_ne c key _ hk]; exact hgK, hltK⟩
    · simpa [he] using h

theorem exhaustedNow_mark (now : ℚ) (c : Cache) (p m key : String)
    (h : exhaustedNow now c key) :
    exhaustedNow now (markProviderExhausted now c p m) key := by
  unfold markProviderExhausted
  by_cases hk : key = providerCacheKey p m
  · subst hk
    refine ⟨now + QUOTA_CACHE_TTL_MS, cacheGet_set_self _ _ _, ?_⟩
    simp only [QUOTA_CACHE_TTL_MS]
    intro hlt; linarith
  · obtain ⟨eK, hgK, hltK⟩ := h
    exact ⟨eK, by rw [cacheGet_set_ne c key _ _ hk]; exact hgK, hltK⟩

theorem exhaustedNow_step (now : ℚ) (c : Cache) (p m key : String) (msg : String)
    (h : exhaustedNow now c key) :
    exhaustedNow now
      (if isQuotaExceededError msg then
        markProviderExhausted now (checkProviderExhausted now c p m).2 p m
      else (checkProviderExhausted now c p m).2) key := by
  by_cases hq : isQuotaExceededError msg = true
  · simp only [hq, if_true]
    exact exhaustedNow_mark now _ p m key (exhaustedNow_check now c p m key h)
  · simp only [Bool.not_eq_true] at hq
    simp only [hq, Bool.false_eq_true, if_false]
    exact exhaustedNow_check now c p m key h

theorem runKeys_none (now : ℚ) (outcome : KeyData → Except String String)
    (keys : List KeyData) (c : Cache)
    (h : ∀ k ∈ keys, exhaustedNow now c (providerCacheKey k.provider k.model)
      ∨ ∃ e, outcome k = Except.error e) :
    (runKeys now outcome keys c).result = none := by
  induction keys generalizing c with
  | nil => rfl
  | cons k rest ih =>
    by_cases hc : (checkProviderExhausted now c k.provider k.model).1 = true
    · simp only [runKeys, hc, if_true]
      refine ih _ (fun k2 hk2 => ?_)
      exact (h k2 (List.mem_cons_of_mem _ hk2)).imp
        (exhaustedNow_check now c k.provider k.model _) id
    · rcases h k (List.mem_cons_self _ _) with hex | ⟨e, he⟩
      · exact absurd ((checkProviderExhausted_true_iff now c _ _).mpr hex) hc
      · simp only [Bool.not_eq_true] at hc
        simp only [runKeys, hc, Bool.false_eq_true, if_false, he]
        refine ih _ (fun k2 hk2 => ?_)
        exact (h k2 (List.mem_cons_of_mem _ hk2)).imp
          (exhaustedNow_step now c k.provider k.model _ e) id

theorem runKeys_attempts_sublist (now : ℚ) (outcome : KeyData → Except String String)
    (keys : List KeyData) (c : Cache) :
    List.Sublist (runKeys now outcome keys c).attempts keys := by
  induction keys generalizing c with
  | nil => exact List.Sublist.refl _
  | cons k rest ih =>
    by_cases hc : (checkProviderExhausted now c k.provider k.model).1 = true
    · simp only [runKeys, hc, if_true]
      exact List.Sublist.cons _ (ih _)
    · simp only [Bool.not_eq_true] at hc
      simp only [runKeys, hc, Bool.false_eq_true, if_false]
      cases ho : outcome k with
      | ok text => exact List.Sublist.cons₂ _ (List.nil_sublist _)
      | error msg => exact List.Sublist.cons₂ _ (ih _)

theorem runKeys_result_some (now : ℚ) (outcome : KeyData → Except String String)
    (keys : List KeyData) (c : Cache) (t : String)
    (h : (runKeys now outcome keys c).result = some t) :
    ∃ ks k, (runKeys now outcome keys c).attempts = ks ++ [k]
      ∧ outcome k = Except.ok t
      ∧ ∀ k2 ∈ ks, ∃ e, outcome k2 = Except.error e := by
  induction keys generalizing c with
  | nil => exact absurd h (by simp [runKeys])
  | cons k rest ih =>
    by_cases hc : (checkProviderExhausted now c k.provider k.model).1 = true
    · simp only [runKeys, hc, if_true] at h ⊢
      exact ih _ h
    · simp only [Bool.not_eq_true] at hc
      simp only [runKeys, hc, Bool.false_eq_true, if_false] at h ⊢
      cases ho : outcome k with
      | ok text =>
        simp only [ho, Option.some.injEq] at h
        exact ⟨[], k, by simp [ho], by rw [ho, h], by simp⟩
      | error msg =>
        simp only [ho] at h ⊢
        obtain ⟨ks, kL, hatt, hok, herr⟩ := ih _ h
        refine ⟨k :: ks, kL, by simp [hatt], hok, ?_⟩
        intro k2 hk2
        rcases List.mem_cons.mp hk2 with hk2 | hk2
        · exact ⟨msg, hk2 ▸ ho⟩
        · exact herr k2 hk2

theorem runKeys_result_none_attempts (now : ℚ)
    (outcome : KeyData → Except String String)
    (keys : List KeyData) (c : Cache)
    (h : (runKeys now outcome keys c).result = none) :
    ∀ k ∈ (runKeys now outcome keys c).attempts, ∃ e, outcome k = Except.error e := by
  induction keys generalizing c with
  | nil => simp [runKeys]
  | cons k rest ih =>
    by_cases hc : (checkProviderExhausted now c k.provider k.model).1 = true
    · simp only [runKeys, hc, if_true] at h ⊢
      exact ih _ h
    · simp only [Bool.not_eq_true] at hc
      simp only [runKeys, hc, Bool.false_eq_true, if_false] at h ⊢
      cases ho : outcome k with
      | ok text => simp [ho] at h
      | error msg =>
        simp only [ho] at h ⊢
        intro k2 hk2
        rcases List.mem_cons.mp hk2 with hk2 | hk2
        · exact ⟨msg, hk2 ▸ ho⟩
        · exact ih _ h k2 hk2

theorem mem_insertByErr {x y : KeyRow} {l : List KeyRow} :
    y ∈ insertByErr x l ↔ y = x ∨ y ∈ l := by
  induction l with
  | nil => simp [insertByErr]
  | cons z zs ih =>
    by_cases h : x.error_count < z.error_count
    · simp [insertByErr, h, List.mem_cons]
    · simp only [insertByErr, h, if_false, List.mem_cons, ih]
      tauto

theorem insertByErr_sorted (x : KeyRow) (l : List KeyRow)
    (h : List.Pairwise (fun a b => a.error_count ≤ b.error_count) l) :
    List.Pairwise (fun a b => a.error_count ≤ b.error_count) (insertByErr x l) := by
  induction l with
  | nil => simp [insertByErr]
  | cons z zs ih =>
    rcases List.pairwise_cons.mp h with ⟨hz, hzs⟩
    by_cases hlt : x.error_count < z.error_count
    · simp only [insertByErr, hlt, if_true]
      refine List.pairwise_cons.mpr ⟨?_, h⟩
      intro b hb
      rcases List.mem_cons.mp hb with hb | hb
      · exact hb ▸ le_of_lt hlt
      · exact le_trans (le_of_lt hlt) (hz b hb)
    · simp only [insertByErr, hlt, if_false]
      refine List.pairwise_cons.mpr ⟨?_, ih hzs⟩
      intro b hb
      rcases mem_insertByErr.mp hb with hb | hb
      · exact hb ▸ le_of_not_lt hlt
      · exact hz b hb

theorem sortByErrorCount_sorted (l : List KeyRow) :
    List.Pairwise (fun a b => a.error_count ≤ b.error_count) (sortByErrorCount l) := by
  induction l with
  | nil => simp [sortByErrorCount]
  | cons x xs ih => exact insertByErr_sorted x _ ih

/-- Key row 1: healthiest candidate (error count 0). -/
def kr1 : KeyRow := ⟨"key1", "sk-1", "", "p1", ["m1"], 0, true⟩

/-- Key row 2: error count 1. -/
def kr2 : KeyRow := ⟨"key2", "sk-2", "", "p2", ["m2"], 1, true⟩

/-- Key row 3: error count 2. -/
def kr3 : KeyRow := ⟨"key3", "sk-3", "", "p3", ["m3"], 2, true⟩

/-- Loaded candidate for `kr1`. -/
def kd1 : KeyData := ⟨"key1", "sk-1", "", "p1", "m1"⟩

/-- Loaded candidate for `kr2`. -/
def kd2 : KeyData := ⟨"key2", "sk-2", "", "p2", "m2"⟩

/-- Loaded candidate for `kr3`. -/
def kd3 : KeyData := ⟨"key3", "sk-3", "", "p3", "m3"⟩

/-- Attempt outcomes where every candidate succeeds with a distinct text. -/
def outcome3 : KeyData → Except String String :=
  fun k => Except.ok ("text-" ++ k.id)

/-- C3, counterexample: with three healthy active credentials (error counts
0, 1, 2) that would all succeed with distinct texts, `aiGenerateText` is
deterministic — it always starts at, attempts only, and returns the result
of the first candidate in the health-sorted order.  The claimed uniformly
random start among the top 3 (which would return `text-key2` with
probability 1/3) never happens: candidates 2 and 3 are never the starting
candidate. -/
theorem c3_counterexample :
    (aiGenerateText 0 [] outcome3 [kr1, kr2, kr3]).result = some "text-key1"
    ∧ (aiGenerateText 0 [] outcome3 [kr1, kr2, kr3]).attempts = [kd1]
    ∧ "text-key1" ≠ "text-key2" := by
  refine ⟨rfl, rfl, by decide⟩

/-- C3, amended: `aiGenerateText` orders the active credentials by ascending
recorded error count and walks the WHOLE pool deterministically from its
head (no random top-3 start; the random pick exists only in the unused
`getActiveKey` helper): the attempted candidates form an order-preserving
sublist of that ordering; the first successful attempt ends the call with
that provider's text and every earlier attempt failed; and when the call
returns `null` every attempted candidate failed. -/
theorem c3_amended :
    (∀ rows : List KeyRow, List.Pairwise
      (fun a b => a.error_count ≤ b.error_count) (sortByErrorCount rows))
    ∧ (∀ now outcome keys c,
        List.Sublist (runKeys now outcome keys c).attempts keys)
    ∧ (∀ now outcome keys c t, (runKeys now outcome keys c).result = some t →
        ((runKeys now outcome keys c).attempts.getLast?).map outcome
          = some (Except.ok t)
        ∧ ∀ k2 ∈ (runKeys now outcome keys c).attempts.dropLast,
            ∃ e, outcome k2 = Except.error e)
    ∧ (∀ now outcome keys c, (runKeys now outcome keys c).result = none →
        ∀ k ∈ (runKeys now outcome keys c).attempts,
          ∃ e, outcome k = Except.error e) := by
  refine ⟨sortByErrorCount_sorted, runKeys_attempts_sublist, ?_,
    runKeys_result_none_attempts⟩
  intro now outcome keys c t h
  obtain ⟨ks, k, hatt, hok, herr⟩ := runKeys_result_some now outcome keys c t h
  rw [hatt]
  constructor
  · rw [List.getLast?_concat]
    simp [hok]
  · rw [List.dropLast_concat]
    exact herr

/-- C3, witness for the amended theorem: on the three-candidate pool the
successful call's last (and only) attempt is the one whose outcome is the
returned text. -/
theorem c3_amended_witness :
    ((runKeys 0 outcome3 [kd1, kd2, kd3] []).attempts.getLast?).map outcome3
      = some (Except.ok "text-key1") :=
  (c3_amended.2.2.1 0 outcome3 [kd1, kd2, kd3] [] "text-key1" rfl).1

/-- Attempt outcomes where the first two candidates fail with quota-matching
messages and the third succeeds. -/
def quotaOutcome : KeyData → Except String String :=
  fun k =>
    if k.id == "key1" then Except.error "quota exceeded"
    else if k.id == "key2" then Except.error "Rate limit reached"
    else Except.ok "text-key3"

/-- C4: a quota-classified failure against a (provider, model) pair starts a
60 s cooldown during which `isProviderExhausted` reports the exact pair
exhausted, and concretely: at instant `t`, a call over three candidates
whose first two quota-fail and whose third succeeds attempts all three once
and returns the third's result; any second call at an instant `tNext`
within the next 60 seconds skips the first two pairs entirely, attempting
only the third candidate whatever its outcome then is. -/
theorem c4_cooldown (t tNext : ℚ) (h1 : t ≤ tNext) (h2 : tNext ≤ t + 60000) :
    (∀ c provider model,
      (checkProviderExhausted tNext (markProviderExhausted t c provider model)
        provider model).1 = true)
    ∧ (aiGenerateText t [] quotaOutcome [kr1, kr2, kr3]).result = some "text-key3"
    ∧ (aiGenerateText t [] quotaOutcome [kr1, kr2, kr3]).attempts = [kd1, kd2, kd3]
    ∧ ∀ outcome2, (runKeys tNext outcome2 (loadAllKeys [kr1, kr2, kr3])
        (aiGenerateText t [] quotaOutcome [kr1, kr2, kr3]).cache).attempts = [kd3] := by
  have hno : ¬ (t + QUOTA_CACHE_TTL_MS < tNext) := by
    simp only [QUOTA_CACHE_TTL_MS]
    intro hl; linarith
  refine ⟨?_, rfl, rfl, ?_⟩
  · intro c provider model
    simp only [markProviderExhausted, checkProviderExhausted, cacheGet_set_self]
    rw [if_neg hno]
  · intro outcome2
    have hcache : (aiGenerateText t [] quotaOutcome [kr1, kr2, kr3]).cache
        = [("p2:m2", t + QUOTA_CACHE_TTL_MS), ("p1:m1", t + QUOTA_CACHE_TTL_MS)] := rfl
    have hkeys : loadAllKeys [kr1, kr2, kr3] = [kd1, kd2, kd3] := rfl
    rw [hcache, hkeys]
    have hg1 : cacheGet [("p2:m2", t + QUOTA_CACHE_TTL_MS), ("p1:m1", t + QUOTA_CACHE_TTL_MS)]
        (providerCacheKey kd1.provider kd1.model) = some (t + QUOTA_CACHE_TTL_MS) := rfl
    have hg2 : cacheGet [("p2:m2", t + QUOTA_CACHE_TTL_MS), ("p1:m1", t + QUOTA_CACHE_TTL_MS)]
        (providerCacheKey kd2.provider kd2.model) = some (t + QUOTA_CACHE_TTL_MS) := rfl
    have hg3 : cacheGet [("p2:m2", t + QUOTA_CACHE_TTL_MS), ("p1:m1", t + QUOTA_CACHE_TTL_MS)]
        (providerCacheKey kd3.provider kd3.model) = none := rfl
    have hchk1 : (checkProviderExhausted tNext
        [("p2:m2", t + QUOTA_CACHE_TTL_MS), ("p1:m1", t + QUOTA_CACHE_TTL_MS)]
        kd1.provider kd1.model).1 = true := by
      simp only [checkProviderExhausted, hg1]
      rw [if_neg hno]
    have hchk2 : (checkProviderExhausted tNext
        [("p2:m2", t + QUOTA_CACHE_TTL_MS), ("p1:m1", t + QUOTA_CACHE_TTL_MS)]
        kd2.provider kd2.model).1 = true := by
      simp only [checkProviderExhausted, hg2]
      rw [if_neg hno]
    have hchk3 : (checkProviderExhausted tNext
        [("p2:m2", t + QUOTA_CACHE_TTL_MS), ("p1:m1", t + QUOTA_CACHE_TTL_MS)]
        kd3.provider kd3.model) = (false,
        [("p2:m2", t + QUOTA_CACHE_TTL_MS), ("p1:m1", t + QUOTA_CACHE_TTL_MS)]) := by
      simp only [checkProviderExhausted, hg3]
    have hsnd1 : (checkProviderExhausted tNext
        [("p2:m2", t + QUOTA_CACHE_TTL_MS), ("p1:m1", t + QUOTA_CACHE_TTL_MS)]
        kd1.provider kd1.model).2
        = [("p2:m2", t + QUOTA_CACHE_TTL_MS), ("p1:m1", t + QUOTA_CACHE_TTL_MS)] := by
      simp only [checkProviderExhausted, hg1]
      rw [if_neg hno]
    have hsnd2 : (checkProviderExhausted tNext
        [("p2:m2", t + QUOTA_CACHE_TTL_MS), ("p1:m1", t + QUOTA_CACHE_TTL_MS)]
        kd2.provider kd2.model).2
        = [("p2:m2", t + QUOTA_CACHE_TTL_MS), ("p1:m1", t + QUOTA_CACHE_TTL_MS)] := by
      simp only [checkProviderExhausted, hg2]
      rw [if_neg hno]
    simp only [runKeys, hchk1, hsnd1, if_true, hchk2, hsnd2, hchk3]
    cases ho : outcome2 kd3 with
    | ok text => simp [ho]
    | error msg => simp [ho, runKeys]

/-- C4, witness at `t = 0`, `tNext = 30000` (30 s later): the first call
returns the third candidate's text after attempting all three. -/
theorem c4_cooldown_witness :
    (aiGenerateText 0 [] quotaOutcome [kr1, kr2, kr3]).result = some "text-key3"
    ∧ (runKeys 30000 outcome3 (loadAllKeys [kr1, kr2, kr3])
        (aiGenerateText 0 [] quotaOutcome [kr1, kr2, kr3]).cache).attempts = [kd3] :=
  ⟨(c4_cooldown 0 30000 (by norm_num) (by norm_num)).2.1,
    (c4_cooldown 0 30000 (by norm_num) (by norm_num)).2.2.2 outcome3⟩

/-- C5: router failure surfaces as `null`, never as an exception — if every
candidate is exhausted at call time or its attempt fails, the text call
returns `null`; the JSON variant returns `null` when generation failed,
and also returns `null` (after unwrapping a fenced block and taking the
object span) whenever `JSON.parse` rejects the extracted candidate
substring. -/
theorem c5_null_surface :
    (∀ now c outcome keys,
      (∀ k ∈ keys, exhaustedNow now c (providerCacheKey k.provider k.model)
        ∨ ∃ e, outcome k = Except.error e) →
      (runKeys now outcome keys c).result = none)
    ∧ (∀ (J : Type) (parse : String → Except String J) now c outcome rows,
        (aiGenerateText now c outcome rows).result = none →
        aiGenerateJson now c outcome rows parse = none)
    ∧ (∀ (J : Type) (parse : String → Except String J) now c outcome rows text e,
        (aiGenerateText now c outcome rows).result = some text →
        parse (jsonCandidate text) = Except.error e →
        aiGenerateJson now c outcome rows parse = none) := by
  refine ⟨fun now c outcome keys h => runKeys_none now outcome keys c h, ?_, ?_⟩
  · intro J parse now c outcome rows h
    simp [aiGenerateJson, h]
  · intro J parse now c outcome rows text e h hp
    simp [aiGenerateJson, h, hp]

/-- C5, witness: a pool whose single candidate fails yields `null`, and a
JSON call whose parse rejects the text yields `null`. -/
theorem c5_null_surface_witness :
    (runKeys 0 (fun _ => Except.error "boom") [kd1] []).result = none
    ∧ aiGenerateJson (J := ℕ) 0 [] outcome3 [kr1]
        (fun _ => Except.error "bad json") = none :=
  ⟨c5_null_surface.1 0 [] _ [kd1] (fun _ _ => Or.inr ⟨"boom", rfl⟩),
    c5_null_surface.2.2 ℕ _ 0 [] outcome3 [kr1] "text-key1" "bad json" rfl rfl⟩

/-! ## Budget governor (src/ai/cost-tracker.ts, `isDailyBudgetExceeded`) -/

/-- The governor's answer: `{ exceeded, spent, limit }`. -/
structure BudgetStatus where
  exceeded : Bool
  spent : ℚ
  limit : ℚ
deriving DecidableEq, Repr

/-- The day's summed spend over the `cost_tracking` rows (a NULL `cost_usd`
counts as 0; an absent result set is the empty list). -/
def sumCosts (rows : List (Option ℚ)) : ℚ :=
  rows.foldl (fun sum r => sum + r.getD 0) 0

/-- `isDailyBudgetExceeded`: exceeded iff the summed spend is ≥ the
configured daily limit (`config.dailyBudgetLimit`, default 5). -/
def isDailyBudgetExceeded (rows : List (Option ℚ)) (limit : ℚ) : BudgetStatus :=
  let spent := sumCosts rows
  ⟨decide (spent ≥ limit), spent, limit⟩

/-- C10: the governor reports exceeded if and only if the day's summed spend
is greater than or equal to the configured daily limit — spend exactly
equal to the limit already counts as exceeded. -/
theorem c10_budget_threshold (rows : List (Option ℚ)) (limit : ℚ) :
    ((isDailyBudgetExceeded rows limit).exceeded = true ↔ sumCosts rows ≥ limit)
    ∧ (isDailyBudgetExceeded rows limit).spent = sumCosts rows
    ∧ (isDailyBudgetExceeded rows limit).limit = limit
    ∧ (sumCosts rows = limit → (isDailyBudgetExceeded rows limit).exceeded = true) := by
  refine ⟨by simp [isDailyBudgetExceeded], rfl, rfl, ?_⟩
  intro h
  simp [isDailyBudgetExceeded, h]

/-- C10, witness: a single cost row of 5 against limit 5 — spend equal to
the ceiling already reports exceeded. -/
theorem c10_budget_threshold_witness :
    sumCosts [some 5] = 5 ∧ (isDailyBudgetExceeded [some 5] 5).exceeded = true := by
  have hs : sumCosts [some 5] = 5 := by simp [sumCosts]
  exact ⟨hs, (c10_budget_threshold [some 5] 5).2.2.2 hs⟩

/-! ## Budget consultation skeletons of the validation gates
(src/agents/keyword-validator/index.ts `runKeywordValidation`,
src/agents/competitive/index.ts `runCompetitiveCheck`).

`B q` is the verdict of the `q`-th `isDailyBudgetExceeded()` consultation
the stage makes (the governor reads shared DB state, so it is an external
oracle indexed by consultation order).  The traces record how many work
items the stage processes and how many consultations it makes. -/

/-- Processed-items / consultations trace of one stage run. -/
structure StageTrace where
  processed : ℕ
  budgetChecks : ℕ
deriving DecidableEq, Repr

/-- The competitive check's item loop: before each derivative it consults
the governor once more and aborts the remaining batch when exceeded. -/
def compLoop {α : Type} (B : ℕ → Bool) : List α → ℕ → ℕ × ℕ
  | [], _ => (0, 0)
  | _ :: xs, q =>
    if B q then (0, 1)
    else
      let r := compLoop B xs (q + 1)
      (r.1 + 1, r.2 + 1)

/-- `runCompetitiveCheck` budget skeleton: one consultation at stage entry
(abort everything if exceeded), then one consultation before each item. -/
def runCompetitiveCheckBudget {α : Type} (B : ℕ → Bool) (items : List α) : StageTrace :=
  if B 0 then ⟨0, 1⟩
  else
    let r := compLoop B items 1
    ⟨r.1, r.2 + 1⟩

/-- `runKeywordValidation` budget skeleton: ONE consultation at stage entry
and none inside the per-derivative loop — the whole batch is processed once
the entry check passes. -/
def runKeywordValidationBudget {α : Type} (B : ℕ → Bool) (items : List α) : StageTrace :=
  if B 0 then ⟨0, 1⟩ else ⟨items.length, 1⟩

/-- C6, counterexample: with a governor that reports the ceiling crossed on
every consultation after stage entry, keyword validation still processes
both items of a two-item batch and consults the governor exactly once —
it never re-checks before an item, so it cannot abort mid-batch; the
competitive check under the same oracle aborts before its first item at
its second consultation. -/
theorem c6_counterexample :
    runKeywordValidationBudget (fun q => decide (1 ≤ q)) [(), ()] = ⟨2, 1⟩
    ∧ runCompetitiveCheckBudget (fun q => decide (1 ≤ q)) [(), ()] = ⟨0, 2⟩ := by
  decide

theorem compLoop_stops {α : Type} (B : ℕ → Bool) (items : List α) (q mOff : ℕ)
    (hfalse : ∀ k, k < mOff → B (q + k) = false) (htrue : B (q + mOff) = true)
    (hlen : mOff < items.length) :
    compLoop B items q = (mOff, mOff + 1) := by
  induction items generalizing q mOff with
  | nil => simp at hlen
  | cons x xs ih =>
    cases mOff with
    | zero =>
      have h0 : B q = true := by simpa using htrue
      simp [compLoop, h0]
    | succ n =>
      have h0 : B q = false := by simpa using hfalse 0 (Nat.succ_pos n)
      have hrec : compLoop B xs (q + 1) = (n, n + 1) := by
        refine ih (q + 1) n (fun k hk => ?_) ?_ (by simpa using hlen)
        · have := hfalse (k + 1) (by omega)
          rwa [show q + (k + 1) = q + 1 + k by omega] at this
        · rwa [show q + 1 + n = q + (n + 1) by omega]
      simp [compLoop, h0, hrec]

theorem compLoop_all {α : Type} (B : ℕ → Bool) (items : List α) (q : ℕ)
    (hfalse : ∀ k, k < items.length → B (q + k) = false) :
    compLoop B items q = (items.length, items.length) := by
  induction items generalizing q with
  | nil => rfl
  | cons x xs ih =>
    have h0 : B q = false := by simpa using hfalse 0 (by simp)
    have hrec : compLoop B xs (q + 1) = (xs.length, xs.length) := by
      refine ih (q + 1) (fun k hk => ?_)
      have := hfalse (k + 1) (by simpa using Nat.succ_lt_succ hk)
      rwa [show q + (k + 1) = q + 1 + k by omega] at this
    simp [compLoop, h0, hrec]

/-- C6, amended: every stage consults the governor at stage entry, and the
competitive check also re-consults it before each item, aborting the
remaining batch at the first consultation that reports the ceiling
crossed; keyword validation, however, consults the governor only at stage
entry and processes its entire batch without per-item re-checks.  With the
first exceeded verdict at consultation `m`: the competitive check processes
`m − 1` items using `m + 1` consultations, while keyword validation
processes zero items when `m = 0` and its whole batch otherwise, always
with a single consultation; when no consultation reports exceeded both
process the whole batch. -/
theorem c6_amended :
    (∀ (α : Type) (B : ℕ → Bool) (items : List α) (m : ℕ),
      (∀ k, k < m → B k = false) → B m = true → m ≤ items.length →
      runCompetitiveCheckBudget B items = ⟨m - 1, m + 1⟩
      ∧ runKeywordValidationBudget B items
          = if m = 0 then ⟨0, 1⟩ else ⟨items.length, 1⟩)
    ∧ (∀ (α : Type) (B : ℕ → Bool) (items : List α),
      (∀ k, k ≤ items.length → B k = false) →
      runCompetitiveCheckBudget B items = ⟨items.length, items.length + 1⟩
      ∧ runKeywordValidationBudget B items = ⟨items.length, 1⟩) := by
  constructor
  · intro α B items m hfalse htrue hlen
    cases m with
    | zero =>
      simp [runCompetitiveCheckBudget, runKeywordValidationBudget, htrue]
    | succ n =>
      have h0 : B 0 = false := hfalse 0 (Nat.succ_pos n)
      have hloop : compLoop B items 1 = (n, n + 1) := by
        refine compLoop_stops B items 1 n (fun k hk => ?_) ?_ (by omega)
        · have := hfalse (k + 1) (by omega)
          rwa [show k + 1 = 1 + k by omega] at this
        · rwa [show 1 + n = n + 1 by omega]
      simp [runCompetitiveCheckBudget, runKeywordValidationBudget, h0, hloop]
  · intro α B items hfalse
    have h0 : B 0 = false := hfalse 0 (Nat.zero_le _)
    have hloop : compLoop B items 1 = (items.length, items.length) := by
      refine compLoop_all B items 1 (fun k hk => ?_)
      have := hfalse (k + 1) (by omega)
      rwa [show k + 1 = 1 + k by omega] at this
    simp [runCompetitiveCheckBudget, runKeywordValidationBudget, h0, hloop]

/-- C6, witness for the amended theorem: first exceeded verdict at
consultation 2 over a three-item batch — the competitive check processes
one item with three consultations; keyword validation processes all three
items with one consultation. -/
theorem c6_amended_witness :
    runCompetitiveCheckBudget (fun q => decide (2 ≤ q)) [(), (), ()] = ⟨1, 3⟩
    ∧ runKeywordValidationBudget (fun q => decide (2 ≤ q)) [(), (), ()] = ⟨3, 1⟩ := by
  have h := c6_amended.1 Unit (fun q => decide (2 ≤ q)) [(), (), ()] 2
    (by decide) (by decide) (by decide)
  exact ⟨h.1, by rw [h.2]; rfl⟩

/-! ## Deriver duplicate suppression (src/agents/deriver/index.ts,
`isDuplicate` / `runDeriver`) -/

/-- One `derived_products` row, restricted to the fields the duplicate check
reads. -/
structure DerivRow where
  slug : String
  target_keywords : List String
  status : String
  created_at : ℚ
deriving DecidableEq, Repr

/-- The overlap count between an existing derivative's keywords and a new
idea's keywords: new keywords for which some existing keyword is in
case-insensitive substring containment, either direction. -/
def keywordOverlapCount (existing newKeywords : List String) : ℕ :=
  let existingKw := existing.map lowerStr
  let newKw := newKeywords.map lowerStr
  (newKw.filter (fun k =>
    existingKw.any (fun ek => strIncludes ek k || strIncludes k ek))).length

/-- `isDuplicate`: true on an exact slug collision, or when some derivative
created within the trailing 30 days (2 592 000 000 ms) and not rejected has
keyword overlap of at least `Math.ceil(n × 0.5)` — in ℕ, `(n + 1) / 2` —
against the new idea's `n` keywords. -/
def isDuplicate (rows : List DerivRow) (now : ℚ) (slug : String)
    (keywords : List String) : Bool :=
  if rows.any (fun r => r.slug == slug) then true
  else
    let recent := rows.filter (fun r =>
      decide (now - 2592000000 ≤ r.created_at) && !(r.status == "rejected"))
    recent.any (fun d =>
      decide ((keywords.length + 1) / 2 ≤ keywordOverlapCount d.target_keywords keywords))

/-- One derivative idea as returned by the AI, restricted to what the
acceptance pipeline reads. -/
structure DerivativeIdea where
  title : String
  target_keywords : List String
  score : ℚ
deriving DecidableEq, Repr

/-- `runDeriver`'s per-idea acceptance: keep only ideas at or above the
minimum derivative score whose slug/keywords pass `isDuplicate`. -/
def deriverAccepts (rows : List DerivRow) (now minScore : ℚ)
    (idea : DerivativeIdea) : Bool :=
  !(decide (idea.score < minScore))
    && !(isDuplicate rows now (slugify idea.title) idea.target_keywords)

/-- C7: a new idea is rejected as a duplicate whenever some non-rejected
derivative created within the trailing 30 days has keywords whose
case-insensitive substring overlap (either direction) with the new idea's
keywords reaches at least 50 % of the new idea's keyword count — and the
deriver then refuses to persist the idea. -/
theorem c7_duplicate_suppression (rows : List DerivRow) (now : ℚ) (slug : String)
    (keywords : List String) (d : DerivRow) (hmem : d ∈ rows)
    (hstat : ¬ d.status = "rejected") (hrecent : now - 2592000000 ≤ d.created_at)
    (hover : keywords.length ≤ 2 * keywordOverlapCount d.target_keywords keywords) :
    isDuplicate rows now slug keywords = true
    ∧ ∀ (minScore : ℚ) (idea : DerivativeIdea), idea.target_keywords = keywords →
        slugify idea.title = slug → deriverAccepts rows now minScore idea = false := by
  have hdup : isDuplicate rows now slug keywords = true := by
    unfold isDuplicate
    by_cases hs : rows.any (fun r => r.slug == slug) = true
    · simp [hs]
    · simp only [Bool.not_eq_true] at hs
      simp only [hs, Bool.false_eq_true, if_false]
      rw [List.any_eq_true]
      refine ⟨d, List.mem_filter.mpr ⟨hmem, ?_⟩, ?_⟩
      · simp [hrecent, hstat]
      · simp only [decide_eq_true_eq]
        omega
  refine ⟨hdup, ?_⟩
  intro minScore idea hk hs
  simp [deriverAccepts, hs, hk, hdup]

/-- An existing, non-rejected, recent derivative about seedance tutorials. -/
def seedRow : DerivRow :=
  ⟨"seedance-tutorial-tips", ["seedance tutorial tips"], "derived", 0⟩

/-- C7, witness: the new keywords
`{"seedance tutorial", "seedance guide"}` are rejected against a recent
non-rejected derivative one of whose keywords is in substring relation with
the first of the two (overlap 1 of 2 = 50 %). -/
theorem c7_duplicate_suppression_witness :
    isDuplicate [seedRow] 0 "seedance-tutorial-hub"
      ["seedance tutorial", "seedance guide"] = true :=
  (c7_duplicate_suppression [seedRow] 0 "seedance-tutorial-hub"
    ["seedance tutorial", "seedance guide"] seedRow (by decide) (by decide)
    (by norm_num [seedRow]) (by decide)).1

/-! ## Keyword validation volume policy
(src/agents/keyword-validator/index.ts) -/

/-- One autocomplete lookup result. -/
structure AutocompleteResult where
  keyword : String
  suggestions : List String
  count : ℕ
deriving DecidableEq, Repr

/-- The estimate `estimateSearchVolume` returns. -/
structure VolumeEstimate where
  volume : String
  totalSuggestions : ℕ
  exactMatches : ℕ
deriving DecidableEq, Repr

/-- `estimateSearchVolume`: aggregate the suggestion counts across keywords
and map the total to a volume estimate (≥ 15 high, ≥ 8 medium, ≥ 3 low,
else none); also count suggestions in case-insensitive substring relation
with their keyword. -/
def estimateSearchVolume (results : List AutocompleteResult) : VolumeEstimate :=
  let totalSuggestions := (results.map (fun r => r.count)).sum
  let exactMatches := (results.map (fun r =>
    (r.suggestions.filter (fun s =>
      strIncludes (lowerStr s) (lowerStr r.keyword) ||
        strIncludes (lowerStr r.keyword) (lowerStr s))).length)).sum
  let volume :=
    if totalSuggestions ≥ 15 then "high"
    else if totalSuggestions ≥ 8 then "medium"
    else if totalSuggestions ≥ 3 then "low" else "none"
  ⟨volume, totalSuggestions, exactMatches⟩

/-- The autocomplete results `runKeywordValidation` gathers for one
derivative: one lookup per target keyword, at most 4 keywords
(`keywords.slice(0, 4)`), each row's `count` the number of suggestions.
`suggest` is the external autocomplete capability. -/
def kvAutoResults (suggest : String → List String) (keywords : List String) :
    List AutocompleteResult :=
  (keywords.take 4).map (fun kw => ⟨kw, suggest kw, (suggest kw).length⟩)

/-- The gate's rejection rule: volume `none`, or volume `low` with
difficulty `hard`. -/
def kvShouldReject (volume difficulty : String) : Bool :=
  volume == "none" || (volume == "low" && difficulty == "hard")

/-- C8: keyword validation aggregates suggestion counts over at most 4
target keywords; the volume estimate is high/medium/low/none by the 15/8/3
thresholds on that total; the derivative is rejected exactly when the
volume is `none`, or `low` with difficulty `hard`; in particular a total of
2 yields `none` and rejection, and a total of 16 yields `high` and is never
rejected whatever the difficulty. -/
theorem c8_volume_policy (suggest : String → List String) (keywords : List String)
    (difficulty : String) :
    ((estimateSearchVolume (kvAutoResults suggest keywords)).totalSuggestions
      = ((keywords.take 4).map (fun kw => (suggest kw).length)).sum)
    ∧ ((estimateSearchVolume (kvAutoResults suggest keywords)).volume
      = if (estimateSearchVolume (kvAutoResults suggest keywords)).totalSuggestions ≥ 15
          then "high"
        else if (estimateSearchVolume (kvAutoResults suggest keywords)).totalSuggestions ≥ 8
          then "medium"
        else if (estimateSearchVolume (kvAutoResults suggest keywords)).totalSuggestions ≥ 3
          then "low" else "none")
    ∧ (kvShouldReject (estimateSearchVolume (kvAutoResults suggest keywords)).volume
          difficulty = true
        ↔ ((estimateSearchVolume (kvAutoResults suggest keywords)).volume = "none"
          ∨ ((estimateSearchVolume (kvAutoResults suggest keywords)).volume = "low"
            ∧ difficulty = "hard")))
    ∧ ((estimateSearchVolume (kvAutoResults suggest keywords)).totalSuggestions = 2 →
        (estimateSearchVolume (kvAutoResults suggest keywords)).volume = "none"
        ∧ kvShouldReject (estimateSearchVolume (kvAutoResults suggest keywords)).volume
            difficulty = true)
    ∧ ((estimateSearchVolume (kvAutoResults suggest keywords)).totalSuggestions = 16 →
        (estimateSearchVolume (kvAutoResults suggest keywords)).volume = "high"
        ∧ kvShouldReject (estimateSearchVolume (kvAutoResults suggest keywords)).volume
            difficulty = false) := by
  have ht : (estimateSearchVolume (kvAutoResults suggest keywords)).totalSuggestions
      = ((keywords.take 4).map (fun kw => (suggest kw).length)).sum := by
    simp only [estimateSearchVolume, kvAutoResults, List.map_map]
    rfl
  have hv : (estimateSearchVolume (kvAutoResults suggest keywords)).volume
      = if (estimateSearchVolume (kvAutoResults suggest keywords)).totalSuggestions ≥ 15
          then "high"
        else if (estimateSearchVolume (kvAutoResults suggest keywords)).totalSuggestions ≥ 8
          then "medium"
        else if (estimateSearchVolume (kvAutoResults suggest keywords)).totalSuggestions ≥ 3
          then "low" else "none" := rfl
  refine ⟨ht, hv, ?_, ?_, ?_⟩
  · simp [kvShouldReject]
  · intro h2
    rw [hv, h2]
    norm_num
    simp [kvShouldReject]
  · intro h16
    rw [hv, h16]
    norm_num
    simp [kvShouldReject]

/-- C8, witness: one keyword with 2 suggestions totals 2 → `none`, rejected;
four keywords with 4 suggestions each total 16 → `high`, not rejected even
at difficulty `hard`. -/
theorem c8_volume_policy_witness :
    ((estimateSearchVolume (kvAutoResults (fun _ => ["s1", "s2"]) ["kw"])).volume = "none"
      ∧ kvShouldReject (estimateSearchVolume
          (kvAutoResults (fun _ => ["s1", "s2"]) ["kw"])).volume "easy" = true)
    ∧ ((estimateSearchVolume (kvAutoResults (fun _ => ["a", "b", "c", "d"])
          ["k1", "k2", "k3", "k4"])).volume = "high"
      ∧ kvShouldReject (estimateSearchVolume (kvAutoResults (fun _ => ["a", "b", "c", "d"])
          ["k1", "k2", "k3", "k4"])).volume "hard" = false) :=
  ⟨(c8_volume_policy (fun _ => ["s1", "s2"]) ["kw"] "easy").2.2.2.1 (by decide),
    (c8_volume_policy (fun _ => ["a", "b", "c", "d"])
      ["k1", "k2", "k3", "k4"] "hard").2.2.2.2 (by decide)⟩
